import Mathlib

/-!
Verification of the per-call conversation orchestration of the sip-bot
repository (src/sip-bot/src/agent_bot.py, src/sip-bot/src/transcription_bot.py).

The Python code is embedded shallowly:

* Python strings become `String` (lists of unicode code points, as in Python);
  `str.strip()` becomes `pstrip`, `str.replace(old, "")` becomes `removeAll`,
  and the `in` substring test becomes `occursIn`.
* A call to an external service that may raise an exception becomes a value of
  `PyResult α`: `ok a` for a normal return, `exn` for a raised exception.
* The two conversation loops (`AgentCall._conversation_loop` and
  `TranscriptionCall._transcription_loop`) become explicit step machines:
  a state records the loop's control point (phase), the mutable per-call
  fields of the Python object, and the observable actions performed so far;
  each external completion (capture result, transcription result, generation
  result, synthesis result, hangup result) or asynchronous signal
  (the `onCallState` DISCONNECTED handler clearing `is_active`) is one input.
-/

namespace SipBot

/-- Result of a Python call that may raise: `ok a` is a normal return,
`exn` is a raised exception (the exception object itself is irrelevant to the
control flow of this code, so it is not carried). -/
inductive PyResult (α : Type) where
  | ok (a : α)
  | exn
deriving DecidableEq, Repr

/-- The six ASCII whitespace characters stripped by Python `str.strip()`
(space, tab, newline, carriage return, vertical tab, form feed).
`str.strip()` also strips some non-ASCII unicode whitespace; no string in this
program contains any, so the ASCII set is a faithful model here. -/
def isWsChar (c : Char) : Bool :=
  c = ' ' || c = '\t' || c = '\n' || c = '\r' || c = '\x0b' || c = '\x0c'

/-- Python `str.strip()` on the underlying character list: drop the maximal
whitespace prefix and the maximal whitespace suffix. -/
def stripL (l : List Char) : List Char :=
  ((l.dropWhile isWsChar).reverse.dropWhile isWsChar).reverse

/-- Python `str.strip()`. -/
def pstrip (s : String) : String :=
  ⟨stripL s.data⟩

/-- Python substring test `p in s` on character lists. -/
def occursIn (p : List Char) : List Char → Bool
  | [] => p.isEmpty
  | c :: rest => p.isPrefixOf (c :: rest) || occursIn p rest

/-- Fuel-driven scan implementing Python `s.replace(p, "")` for a nonempty
pattern `p`: remove non-overlapping occurrences of `p` left to right, in a
single pass (the removal is not iterated on its own output).  The fuel only
makes the recursion structural; `fuel = s.length` always suffices because each
step consumes at least one character. -/
def removeAllAux (p : List Char) : Nat → List Char → List Char
  | _, [] => []
  | 0, s => s
  | fuel + 1, c :: rest =>
    if p.isPrefixOf (c :: rest) && !p.isEmpty then
      removeAllAux p fuel ((c :: rest).drop p.length)
    else
      c :: removeAllAux p fuel rest

/-- Python `s.replace(p, "")` for nonempty `p`. -/
def removeAll (p : List Char) (s : List Char) : List Char :=
  removeAllAux p s.length s

/-- The termination sentinel the generation service is instructed to emit
(agent_bot.py line 210). -/
def sentinel : String := "[ENDE]"

/-- The fixed apology returned by `_generate_response` on any generation
failure (agent_bot.py line 217). -/
def apologyText : String := "Es tut mir leid, es gab einen technischen Fehler."

/-- Embedding of `AgentCall._generate_response` (agent_bot.py lines 188-217), as a function
of the generation service's outcome.  On a normal return the raw text is
stripped, the sentinel test sets `should_end`, all occurrences of the sentinel
are removed in one pass and the result stripped again; on any exception the
fixed apology and `True` are returned. -/
def generateResponse (r : PyResult String) : String × Bool :=
  match r with
  | .exn => (apologyText, true)
  | .ok raw =>
    let t := pstrip raw
    let shouldEnd := occursIn sentinel.data t.data
    (pstrip ⟨removeAll sentinel.data t.data⟩, shouldEnd)

example : generateResponse (.ok "Auf Wiederhoeren. [ENDE]") =
    ("Auf Wiederhoeren.", true) := by decide

example : generateResponse (.ok "[EN[ENDE]DE]") = ("[ENDE]", true) := by decide

example : generateResponse .exn = (apologyText, true) := rfl

/-- The re-prompt spoken when `_listen_for_speech` returns no audio
(agent_bot.py line 96). -/
def noAudioPrompt : String := "Ich habe Sie nicht verstanden. Bitte wiederholen Sie."

/-- The re-prompt spoken when transcription yields no usable text
(agent_bot.py line 103). -/
def noSpeechPrompt : String := "Entschuldigung, ich habe Sie nicht verstanden."

/-- One message of `conversation_history` (a Python dict with keys
`role` and `content`, agent_bot.py lines 109-112 and 120-123). -/
structure Msg where
  role : String
  content : String
deriving DecidableEq, Repr

/-- Embedding of `AgentCall._listen_for_speech` (agent_bot.py lines 138-168) as a function
of the recorder outcome: an exception anywhere in the body returns `None`
(line 168), and empty recorder data returns `None` (line 153); otherwise the
samples are wrapped into a WAV container and returned (the wrapping is
modelled as the identity on the opaque audio token). -/
def listenForSpeech (r : PyResult (Option String)) : Option String :=
  match r with
  | .exn => none
  | .ok none => none
  | .ok (some samples) => some samples

/-- Embedding of `AgentCall._transcribe` (agent_bot.py lines 170-186) as a function of the
transcription service's outcome: a normal response is stripped and returned,
any exception returns `None`. -/
def transcribeResult (r : PyResult String) : Option String :=
  match r with
  | .exn => none
  | .ok raw => some (pstrip raw)

/-- Control point of `AgentCall._conversation_loop` at which the coroutine is
parked awaiting an external completion:

* `capturing` — inside `_listen_for_speech` (the `while self.is_active` test
  at line 89 has already passed and capture is in flight);
* `awaitStt audio` — inside `_transcribe audio`;
* `awaitGen` — inside `_generate_response` (the user message is already
  appended to the history);
* `speakText text k` — inside `_speak text`; `k` records what follows the
  speak: `continueLoop` for the two re-prompt paths (`continue` statements at
  lines 97 and 104), `checkEnd e` for the response path (line 129);
* `awaitHangup` — inside `self.hangup` (line 131);
* `closed` — the loop has exited (the `while` test failed, or `break`). -/
inductive After where
  | continueLoop
  | checkEnd (shouldEnd : Bool)
deriving DecidableEq, Repr

inductive Phase where
  | capturing
  | awaitStt (win : String)
  | awaitGen
  | speakText (text : String) (k : After)
  | awaitHangup
  | closed
deriving DecidableEq, Repr

/-- Observable actions of a conversation loop run, in order:

* `spoke text` — `_speak text` was invoked (TTS attempted);
* `waited tenths` — `_speak` slept `tenths * 0.1` seconds for playback
  (agent_bot.py lines 254-255: the duration is `len(text) * 0.1`);
* `sttAttempt audio` — `_transcribe` was invoked on the captured window;
* `genCalled` — `_generate_response` was invoked;
* `hangup` — `self.hangup` returned normally (the call was torn down). -/
inductive Ev where
  | spoke (text : String)
  | waited (tenths : Nat)
  | sttAttempt (win : String)
  | genCalled
  | hangup
deriving DecidableEq, Repr

/-- State of one `AgentCall` as seen by `_conversation_loop`: the
`is_active` flag (written by `onCallState`, read by the loop), the
`conversation_history` list, the loop's control point and the observable
actions performed so far. -/
structure AgentSt where
  isActive : Bool
  history : List Msg
  phase : Phase
  events : List Ev
deriving DecidableEq, Repr

/-- The `while self.is_active` test at agent_bot.py line 89: if the flag is
still set the loop starts the next capture, otherwise it exits. -/
def toLoopTop (active : Bool) : Phase :=
  if active then .capturing else .closed

/-- Inputs driving the loop: the asynchronous DISCONNECTED callback clearing
`is_active` (agent_bot.py line 50), and the completion of each in-flight
external operation (capture, transcription, generation, synthesis, hangup),
each possibly raising. -/
inductive Inp where
  | deactivate
  | capture (r : PyResult (Option String))
  | stt (r : PyResult String)
  | gen (r : PyResult String)
  | tts (r : PyResult String)
  | hangupRes (r : PyResult Unit)
deriving DecidableEq, Repr

/-- One step of `AgentCall._conversation_loop` (agent_bot.py lines 81-136).
`deactivate` may arrive at any control point and only clears the flag — the
loop body never re-reads `is_active` mid-turn, so the in-flight turn runs to
completion and the flag is observed at the next `while` test (`toLoopTop`).
An input that is not the completion the current phase awaits is ignored.
Each helper catches its own exceptions (`_listen_for_speech`, `_transcribe`,
`_generate_response`, `_speak` all return a fallback on exception); the
loop-level `except` at lines 134-136 catches what they do not — in this body
only `self.hangup` can raise out of a helper — and continues the loop. -/
def stepA (s : AgentSt) (i : Inp) : AgentSt :=
  match i, s.phase with
  | .deactivate, _ => { s with isActive := false }
  | .capture r, .capturing =>
    match listenForSpeech r with
    | none => { s with phase := .speakText noAudioPrompt .continueLoop }
    | some win => { s with phase := .awaitStt win }
  | .stt r, .awaitStt win =>
    let s2 : AgentSt := { s with events := s.events ++ [.sttAttempt win] }
    match transcribeResult r with
    | none => { s2 with phase := .speakText noSpeechPrompt .continueLoop }
    | some t =>
      if t = "" then { s2 with phase := .speakText noSpeechPrompt .continueLoop }
      else { s2 with history := s2.history ++ [Msg.mk "user" t], phase := .awaitGen }
  | .gen r, .awaitGen =>
    { s with history := s.history ++ [Msg.mk "assistant" (generateResponse r).1],
             events := s.events ++ [.genCalled],
             phase := .speakText (generateResponse r).1
                        (.checkEnd (generateResponse r).2) }
  | .tts r, .speakText text k =>
    let evs : List Ev :=
      match r with
      | .ok _ => [.spoke text, .waited text.length]
      | .exn => [.spoke text]
    let s2 : AgentSt := { s with events := s.events ++ evs }
    match k with
    | .continueLoop => { s2 with phase := toLoopTop s2.isActive }
    | .checkEnd false => { s2 with phase := toLoopTop s2.isActive }
    | .checkEnd true => { s2 with phase := .awaitHangup }
  | .hangupRes r, .awaitHangup =>
    match r with
    | .ok _ => { s with events := s.events ++ [.hangup], phase := .closed }
    | .exn => { s with phase := toLoopTop s.isActive }
  | _, _ => s

/-- Run the loop on a list of inputs. -/
def runA (s : AgentSt) : List Inp → AgentSt
  | [] => s
  | i :: rest => runA (stepA s i) rest

/-- Initial state: `is_active` was set on CONFIRMED (agent_bot.py line 43),
the history is empty, and the loop task has just entered the `while` test. -/
def initA : AgentSt :=
  { isActive := true, history := [], phase := toLoopTop true, events := [] }

/-- Embedding of `TranscriptionCall._get_audio_chunk` (transcription_bot.py lines 92-121)
as a function of the recorder outcome: exceptions and empty recorder data
both return `None`, otherwise the samples are wrapped into WAV (modelled as
the identity on the opaque audio token). -/
def getAudioChunk (r : PyResult (Option String)) : Option String :=
  match r with
  | .exn => none
  | .ok none => none
  | .ok (some samples) => some samples

/-- Embedding of `TranscriptionCall._transcribe_audio` (transcription_bot.py lines
123-143): a normal response is stripped and returned, any exception returns
`None`. -/
def transcribeAudio (r : PyResult String) : Option String :=
  match r with
  | .exn => none
  | .ok raw => some (pstrip raw)

/-- Control point of `TranscriptionCall._transcription_loop`:
`capturingT` — inside `_get_audio_chunk` (the `while self.is_recording` test
at line 70 has passed); `awaitSttT audio` — inside `_transcribe_audio`;
`closedT` — the loop has exited. -/
inductive TPhase where
  | capturingT
  | awaitSttT (win : String)
  | closedT
deriving DecidableEq, Repr

/-- Observable action of a transcription-loop run.
Modelled from the spec: the transcript sink (`self.ws_sender.send_transcript`,
transcription_bot.py line 86) is an external collaborator whose implementation
is not under src/; per the spec it is a one-way best-effort push of
`(CallHandle, text, timestamp)` to the external consumer. -/
inductive TEv where
  | sinkPush (call : String) (text : String) (t : Nat)
deriving DecidableEq, Repr

/-- State of one `TranscriptionCall` as seen by `_transcription_loop`:
the `is_recording` flag (cleared by `onCallState` on DISCONNECTED, line 39),
the call handle, a step counter serving as the clock for timestamps, the
loop's control point, and the pushes performed so far. -/
structure TransSt where
  isRecording : Bool
  callId : String
  now : Nat
  phase : TPhase
  events : List TEv
deriving DecidableEq, Repr

/-- The `while self.is_recording` test at transcription_bot.py line 70. -/
def toLoopTopT (recording : Bool) : TPhase :=
  if recording then .capturingT else .closedT

/-- Inputs driving the transcription loop: the DISCONNECTED callback clearing
`is_recording`, and the completion of the in-flight chunk capture or
transcription call. -/
inductive TInp where
  | deactivateT
  | chunk (r : PyResult (Option String))
  | sttT (r : PyResult String)
deriving DecidableEq, Repr

/-- One step of `TranscriptionCall._transcription_loop` (transcription_bot.py
lines 63-90).  An empty chunk sleeps briefly and re-enters the `while` test
(lines 75-77); a truthy (non-empty) transcript is pushed to the sink (lines
82-86) and the loop re-enters the `while` test; a `None` or empty transcript
pushes nothing.  The clock advances by one on every input. -/
def stepT (s : TransSt) (i : TInp) : TransSt :=
  match i, s.phase with
  | .deactivateT, _ => { s with now := s.now + 1, isRecording := false }
  | .chunk r, .capturingT =>
    match getAudioChunk r with
    | none => { s with now := s.now + 1, phase := toLoopTopT s.isRecording }
    | some win => { s with now := s.now + 1, phase := .awaitSttT win }
  | .sttT r, .awaitSttT _ =>
    match transcribeAudio r with
    | none => { s with now := s.now + 1, phase := toLoopTopT s.isRecording }
    | some t =>
      if t = "" then
        { s with now := s.now + 1, phase := toLoopTopT s.isRecording }
      else
        { s with now := s.now + 1,
                 events := s.events ++ [TEv.sinkPush s.callId t (s.now + 1)],
                 phase := toLoopTopT s.isRecording }
  | _, _ => { s with now := s.now + 1 }

/-- Run the transcription loop on a list of inputs. -/
def runT (s : TransSt) : List TInp → TransSt
  | [] => s
  | i :: rest => runT (stepT s i) rest

/-- Initial state: `is_recording` was set on media activation
(transcription_bot.py line 58) and the loop task has just entered the
`while` test. -/
def initT : TransSt :=
  { isRecording := true, callId := "call-1", now := 0,
    phase := toLoopTopT true, events := [] }

example :
    runT initT [.chunk (.ok (some "w")), .sttT (.ok "Hallo")] =
      { isRecording := true, callId := "call-1", now := 2,
        phase := .capturingT,
        events := [TEv.sinkPush "call-1" "Hallo" 2] } := by decide

example :
    (runA initA [.capture (.ok (some "w")), .deactivate,
      .stt (.ok "Hallo")]).phase = .awaitGen := by decide

/-! ### Helper lemmas about the string model -/

lemma isPrefixOf_iff (p : List Char) :
    ∀ s : List Char, p.isPrefixOf s = true ↔ ∃ t, s = p ++ t := by
  induction p with
  | nil =>
    intro s
    simp [List.isPrefixOf]
  | cons a as ih =>
    intro s
    cases s with
    | nil =>
      simp [List.isPrefixOf]
    | cons b bs =>
      simp only [List.isPrefixOf, Bool.and_eq_true, beq_iff_eq, ih bs]
      constructor
      · rintro ⟨rfl, t, rfl⟩
        exact ⟨t, rfl⟩
      · rintro ⟨t, ht⟩
        injection ht with h1 h2
        exact ⟨h1.symm, t, h2⟩

lemma occursIn_iff (p : List Char) :
    ∀ s : List Char, occursIn p s = true ↔ ∃ l r, s = l ++ p ++ r := by
  intro s
  induction s with
  | nil =>
    simp only [occursIn, List.isEmpty_iff]
    constructor
    · rintro rfl
      exact ⟨[], [], rfl⟩
    · rintro ⟨l, r, h⟩
      rcases List.append_eq_nil.mp h.symm with ⟨h1, h2⟩
      exact (List.append_eq_nil.mp h1).2
  | cons c rest ih =>
    simp only [occursIn, Bool.or_eq_true, isPrefixOf_iff, ih]
    constructor
    · rintro (⟨t, ht⟩ | ⟨l, r, hlr⟩)
      · exact ⟨[], t, by simpa using ht⟩
      · exact ⟨c :: l, r, by simp [hlr]⟩
    · rintro ⟨l, r, hlr⟩
      cases l with
      | nil =>
        exact Or.inl ⟨r, by simpa using hlr⟩
      | cons c2 l2 =>
        injection hlr with h1 h2
        exact Or.inr ⟨l2, r, h2⟩

lemma dropWhile_ws_append (p : List Char) (hp : ∀ c ∈ p, isWsChar c = false)
    (hne : p ≠ []) :
    ∀ l r : List Char, ∃ l2, (l ++ p ++ r).dropWhile isWsChar = l2 ++ p ++ r := by
  intro l
  induction l with
  | nil =>
    intro r
    cases p with
    | nil => exact absurd rfl hne
    | cons d p2 =>
      refine ⟨[], ?_⟩
      have hd : isWsChar d = false := hp d (by simp)
      simp [List.dropWhile_cons, hd]
  | cons c l2 ih =>
    intro r
    by_cases hc : isWsChar c = true
    · obtain ⟨l3, h3⟩ := ih r
      exact ⟨l3, by simpa [List.dropWhile_cons, hc] using h3⟩
    · refine ⟨c :: l2, ?_⟩
      simp only [Bool.not_eq_true] at hc
      simp [List.dropWhile_cons, hc]

lemma occursIn_stripL (p s : List Char) (hp : ∀ c ∈ p, isWsChar c = false)
    (hne : p ≠ []) (h : occursIn p s = true) :
    occursIn p (stripL s) = true := by
  obtain ⟨l, r, rfl⟩ := (occursIn_iff p s).mp h
  obtain ⟨l2, h1⟩ := dropWhile_ws_append p hp hne l r
  have hp2 : ∀ c ∈ p.reverse, isWsChar c = false :=
    fun c hc => hp c (List.mem_reverse.mp hc)
  have hne2 : p.reverse ≠ [] := by
    simpa using hne
  obtain ⟨r2, h2⟩ := dropWhile_ws_append p.reverse hp2 hne2 r.reverse l2.reverse
  unfold stripL
  rw [h1]
  have hrev : (l2 ++ p ++ r).reverse = r.reverse ++ p.reverse ++ l2.reverse := by
    simp [List.reverse_append, List.append_assoc]
  rw [hrev, h2]
  refine (occursIn_iff p _).mpr ⟨l2, r2.reverse, ?_⟩
  simp [List.reverse_append, List.append_assoc]

lemma len_dropWhile_le (q : Char → Bool) (s : List Char) :
    (s.dropWhile q).length ≤ s.length := by
  induction s with
  | nil => simp
  | cons c rest ih =>
    by_cases hc : q c = true
    · simp only [List.dropWhile_cons, hc, if_true, List.length_cons]
      omega
    · simp only [Bool.not_eq_true] at hc
      simp [List.dropWhile_cons, hc]

lemma stripL_length_le (s : List Char) : (stripL s).length ≤ s.length := by
  unfold stripL
  calc ((s.dropWhile isWsChar).reverse.dropWhile isWsChar).reverse.length
      = ((s.dropWhile isWsChar).reverse.dropWhile isWsChar).length := by
        simp
    _ ≤ (s.dropWhile isWsChar).reverse.length := len_dropWhile_le _ _
    _ = (s.dropWhile isWsChar).length := by simp
    _ ≤ s.length := len_dropWhile_le _ _

lemma removeAllAux_length_le (p : List Char) :
    ∀ (fuel : Nat) (s : List Char), (removeAllAux p fuel s).length ≤ s.length := by
  intro fuel
  induction fuel with
  | zero =>
    intro s
    cases s <;> simp [removeAllAux]
  | succ n ih =>
    intro s
    cases s with
    | nil => simp [removeAllAux]
    | cons c rest =>
      by_cases h : (p.isPrefixOf (c :: rest) && !p.isEmpty) = true
      · have : removeAllAux p (n + 1) (c :: rest) =
            removeAllAux p n ((c :: rest).drop p.length) := by
          simp [removeAllAux, h]
        rw [this]
        calc (removeAllAux p n ((c :: rest).drop p.length)).length
            ≤ ((c :: rest).drop p.length).length := ih _
          _ ≤ (c :: rest).length := by
              simp only [List.length_drop]
              omega
      · have : removeAllAux p (n + 1) (c :: rest) =
            c :: removeAllAux p n rest := by
          simp [removeAllAux, h]
        rw [this]
        simpa using ih rest

lemma removeAllAux_length (p : List Char) (hne : p ≠ []) :
    ∀ (fuel : Nat) (s : List Char), occursIn p s = true → s.length ≤ fuel →
      (removeAllAux p fuel s).length + p.length ≤ s.length := by
  intro fuel
  induction fuel with
  | zero =>
    intro s hocc hlen
    have : s = [] := List.length_eq_zero.mp (Nat.le_zero.mp hlen)
    subst this
    simp only [occursIn, List.isEmpty_iff] at hocc
    exact absurd hocc hne
  | succ n ih =>
    intro s hocc hlen
    cases s with
    | nil =>
      simp only [occursIn, List.isEmpty_iff] at hocc
      exact absurd hocc hne
    | cons c rest =>
      by_cases hpre : p.isPrefixOf (c :: rest) = true
      · have hcond : (p.isPrefixOf (c :: rest) && !p.isEmpty) = true := by
          simp [hpre, List.isEmpty_iff, hne]
        have hstep : removeAllAux p (n + 1) (c :: rest) =
            removeAllAux p n ((c :: rest).drop p.length) := by
          simp [removeAllAux, hcond]
        obtain ⟨t, ht⟩ := (isPrefixOf_iff p (c :: rest)).mp hpre
        have hplen : p.length ≤ (c :: rest).length := by
          rw [ht]
          simp
        have hrec : (removeAllAux p n ((c :: rest).drop p.length)).length
            ≤ ((c :: rest).drop p.length).length := removeAllAux_length_le p n _
        rw [hstep]
        simp only [List.length_drop, List.length_cons] at hrec hplen ⊢
        omega
      · have hcond : (p.isPrefixOf (c :: rest) && !p.isEmpty) = false := by
          simp [hpre]
        have hstep : removeAllAux p (n + 1) (c :: rest) =
            c :: removeAllAux p n rest := by
          simp [removeAllAux, hcond]
        have hocc2 : occursIn p rest = true := by
          have h0 := hocc
          simp only [occursIn, Bool.or_eq_true] at h0
          rcases h0 with h1 | h2
          · exact absurd h1 hpre
          · exact h2
        have hrec := ih rest hocc2 (by simpa using Nat.succ_le_succ_iff.mp hlen)
        rw [hstep]
        simp only [List.length_cons]
        omega

lemma removeAll_length (p s : List Char) (hne : p ≠ [])
    (hocc : occursIn p s = true) :
    (removeAll p s).length + p.length ≤ s.length :=
  removeAllAux_length p hne s.length s hocc (Nat.le_refl _)

/-! ### Claim theorems -/

/-- C3, counterexample: the claim "the returned utterance text does not
contain the sentinel substring" fails on the generated text
`"[EN[ENDE]DE]"`: it contains the sentinel, `_generate_response` returns
`should_end = true`, but the single-pass `str.replace` removes only the inner
occurrence and the juxtaposed fragments `"[EN"` and `"DE]"` form the sentinel
again, so the returned utterance is exactly `"[ENDE]"` and still contains the
sentinel. -/
theorem C3_counterexample :
    occursIn sentinel.data ("[EN[ENDE]DE]" : String).data = true ∧
    generateResponse (.ok "[EN[ENDE]DE]") = ("[ENDE]", true) ∧
    occursIn sentinel.data
      (generateResponse (.ok "[EN[ENDE]DE]")).1.data = true := by
  decide

/-- C3 (amended): for every generated text containing the sentinel
`"[ENDE]"`, `_generate_response` returns `should_end = true`, and the returned
utterance is the text with all non-overlapping occurrences of the sentinel
removed in a single left-to-right pass and the result whitespace-stripped —
in particular at least one full occurrence is removed, so the utterance is
shorter than the input by at least the sentinel's length.  The removal is not
iterated, so a sentinel formed anew by juxtaposition of the remaining
fragments can survive in the returned text. -/
theorem C3_sentinel_should_end (raw : String)
    (h : occursIn sentinel.data raw.data = true) :
    (generateResponse (.ok raw)).2 = true ∧
    (generateResponse (.ok raw)).1.length + sentinel.length ≤ raw.length := by
  have hp : ∀ c ∈ sentinel.data, isWsChar c = false := by decide
  have hne : sentinel.data ≠ [] := by decide
  have h1 : occursIn sentinel.data (stripL raw.data) = true :=
    occursIn_stripL _ _ hp hne h
  constructor
  · show occursIn sentinel.data (pstrip raw).data = true
    exact h1
  · show (pstrip ⟨removeAll sentinel.data (pstrip raw).data⟩).length +
      sentinel.length ≤ raw.length
    have a1 : (stripL (removeAll sentinel.data (stripL raw.data))).length ≤
        (removeAll sentinel.data (stripL raw.data)).length := stripL_length_le _
    have a2 : (removeAll sentinel.data (stripL raw.data)).length +
        sentinel.data.length ≤ (stripL raw.data).length :=
      removeAll_length _ _ hne h1
    have a3 : (stripL raw.data).length ≤ raw.data.length := stripL_length_le _
    show (stripL (removeAll sentinel.data (stripL raw.data))).length +
      sentinel.data.length ≤ raw.data.length
    omega

/-- Witness for C3 (amended) at the concrete generated text
`"Auf Wiederhoeren. [ENDE]"`. -/
theorem C3_sentinel_should_end_witness :
    (generateResponse (.ok "Auf Wiederhoeren. [ENDE]")).2 = true ∧
    (generateResponse (.ok "Auf Wiederhoeren. [ENDE]")).1.length +
      sentinel.length ≤ ("Auf Wiederhoeren. [ENDE]" : String).length :=
  C3_sentinel_should_end "Auf Wiederhoeren. [ENDE]" (by decide)

/-- C4: on any generation failure, `_generate_response` returns the one fixed
apology utterance with `should_end = true`, and the conversation loop
(processing that failing generation at the planning point) appends the apology
to the history and proceeds directly to speaking it with the end flag set —
generation is not retried and the fallback does not consult the generation
service. -/
theorem C4_generation_failure_fallback (s : AgentSt) (h : s.phase = .awaitGen) :
    generateResponse .exn = (apologyText, true) ∧
    stepA s (.gen .exn) =
      { s with history := s.history ++ [Msg.mk "assistant" apologyText],
               events := s.events ++ [.genCalled],
               phase := .speakText apologyText (.checkEnd true) } := by
  cases s with
  | mk a hist ph ev =>
    simp only at h
    subst h
    exact ⟨rfl, rfl⟩

/-- Number of loop stages that can still run before the in-flight turn ends
and the `while self.is_active` test is re-evaluated. -/
def stagesLeft : Phase → Nat
  | .capturing => 5
  | .awaitStt _ => 4
  | .awaitGen => 3
  | .speakText _ _ => 2
  | .awaitHangup => 1
  | .closed => 0

/-- Whether an input is the completion the loop's current control point is
awaiting (all other inputs are ignored by `stepA`, except `deactivate`). -/
def expects : Phase → Inp → Bool
  | .capturing, .capture _ => true
  | .awaitStt _, .stt _ => true
  | .awaitGen, .gen _ => true
  | .speakText _ _, .tts _ => true
  | .awaitHangup, .hangupRes _ => true
  | _, _ => false

/-- C1, counterexample: the end signal raised at the stage boundary right
after capture is NOT honoured within one stage boundary.  In the run below
the disconnect handler clears `is_active` after the capture completes; the
loop nevertheless transcribes (after which it is still not closed),
invokes generation and plays the response — three further stages — before the
`while` test finally observes the flag and the loop terminates. -/
theorem C1_counterexample :
    (runA initA [.capture (.ok (some "w")), .deactivate,
      .stt (.ok "Hallo")]).isActive = false ∧
    (runA initA [.capture (.ok (some "w")), .deactivate,
      .stt (.ok "Hallo")]).phase ≠ .closed ∧
    (runA initA [.capture (.ok (some "w")), .deactivate, .stt (.ok "Hallo"),
      .gen (.ok "Danke fuer Ihren Anruf."), .tts (.ok "mp3")]).phase =
      .closed ∧
    (runA initA [.capture (.ok (some "w")), .deactivate, .stt (.ok "Hallo"),
      .gen (.ok "Danke fuer Ihren Anruf."), .tts (.ok "mp3")]).events =
      [Ev.sttAttempt "w", Ev.genCalled, Ev.spoke "Danke fuer Ihren Anruf.",
       Ev.waited 23] := by
  decide

/-- C1 (amended): the conversation loop reads `is_active` only at the top of
each iteration, not at stage boundaries.  Once the end signal has cleared the
flag, it stays cleared, no step increases the number of stages left in the
in-flight turn, and every completion the loop was actually awaiting strictly
decreases it — so the loop reaches `closed` by the end of the in-flight turn
(at most 5 further stage completions) and never starts a new turn, i.e.
termination happens within one full turn rather than within one stage
boundary. -/
theorem C1_end_within_turn (s : AgentSt) (i : Inp) (h : s.isActive = false) :
    (stepA s i).isActive = false ∧
    stagesLeft (stepA s i).phase ≤ stagesLeft s.phase ∧
    (expects s.phase i = true →
      stagesLeft (stepA s i).phase < stagesLeft s.phase) := by
  obtain ⟨a, hist, ph, ev⟩ := s
  simp only at h
  subst h
  cases i with
  | deactivate =>
    cases ph <;> simp [stepA, stagesLeft, expects]
  | capture r =>
    cases ph <;>
      cases r with
      | exn => simp [stepA, stagesLeft, expects, listenForSpeech]
      | ok o =>
        cases o <;>
          simp [stepA, stagesLeft, expects, listenForSpeech]
  | stt r =>
    cases ph with
    | awaitStt win =>
      cases r with
      | exn => simp [stepA, stagesLeft, expects, transcribeResult]
      | ok raw =>
        by_cases hb : pstrip raw = "" <;>
          simp [stepA, stagesLeft, expects, transcribeResult, hb]
    | _ => simp [stepA, stagesLeft, expects]
  | gen r =>
    cases ph <;> simp [stepA, stagesLeft, expects]
  | tts r =>
    cases ph with
    | speakText text k =>
      cases k with
      | continueLoop =>
        cases r <;> simp [stepA, stagesLeft, expects, toLoopTop]
      | checkEnd e =>
        cases e <;> cases r <;>
          simp [stepA, stagesLeft, expects, toLoopTop]
    | _ => simp [stepA, stagesLeft, expects]
  | hangupRes r =>
    cases ph <;>
      cases r <;> simp [stepA, stagesLeft, expects, toLoopTop]

/-- A deactivated call whose loop is parked in capture (used as the concrete
instance for the C1 witness). -/
def deactivatedCapturing : AgentSt :=
  { isActive := false, history := [], phase := .capturing, events := [] }

/-- Witness for C1 (amended): a deactivated call parked in capture. -/
theorem C1_end_within_turn_witness :
    (stepA deactivatedCapturing (.capture (.ok none))).isActive = false ∧
    stagesLeft (stepA deactivatedCapturing (.capture (.ok none))).phase ≤
      stagesLeft deactivatedCapturing.phase ∧
    (expects deactivatedCapturing.phase (.capture (.ok none)) = true →
      stagesLeft (stepA deactivatedCapturing (.capture (.ok none))).phase <
        stagesLeft deactivatedCapturing.phase) :=
  C1_end_within_turn deactivatedCapturing (.capture (.ok none)) rfl

/-- Witness for C4 at a concrete mid-call state. -/
theorem C4_generation_failure_fallback_witness :
    generateResponse .exn = (apologyText, true) ∧
    stepA { isActive := true, history := [Msg.mk "user" "Hallo"],
            phase := .awaitGen, events := [Ev.sttAttempt "w"] } (.gen .exn) =
      { isActive := true,
        history := [Msg.mk "user" "Hallo", Msg.mk "assistant" apologyText],
        phase := .speakText apologyText (.checkEnd true),
        events := [Ev.sttAttempt "w", Ev.genCalled] } :=
  C4_generation_failure_fallback
    { isActive := true, history := [Msg.mk "user" "Hallo"],
      phase := .awaitGen, events := [Ev.sttAttempt "w"] } rfl

/-- Builds `n` back-to-back repetitions of a block of inputs (or events). -/
def reps {α : Type} (n : Nat) (l : List α) : List α :=
  match n with
  | 0 => []
  | m + 1 => l ++ reps m l

/-- Number of occurrences of an event in an event log. -/
def countEv (e : Ev) (l : List Ev) : Nat :=
  (l.filter (fun x => decide (x = e))).length

lemma runA_append (s : AgentSt) (l1 l2 : List Inp) :
    runA s (l1 ++ l2) = runA (runA s l1) l2 := by
  induction l1 generalizing s with
  | nil => rfl
  | cons i rest ih =>
    simp only [List.cons_append, runA]
    exact ih _

/-- One full silence turn: empty capture, then the re-prompt is spoken. -/
lemma runA_silence_cycle (s : AgentSt) (h1 : s.isActive = true)
    (h2 : s.phase = .capturing) :
    runA s [.capture (.ok none), .tts (.ok "m")] =
      { s with events := s.events ++
          [Ev.spoke noAudioPrompt, Ev.waited noAudioPrompt.length] } := by
  obtain ⟨a, hist, ph, ev⟩ := s
  simp only at h1 h2
  subst h1
  subst h2
  simp [runA, stepA, listenForSpeech, toLoopTop]

/-- One full failed-transcription turn: capture succeeds, the transcription
service raises, the loop speaks the apology re-prompt and goes back to
capturing a fresh window. -/
lemma runA_sttFail_cycle (s : AgentSt) (w : String) (h1 : s.isActive = true)
    (h2 : s.phase = .capturing) :
    runA s [.capture (.ok (some w)), .stt .exn, .tts (.ok "m")] =
      { s with events := s.events ++
          [Ev.sttAttempt w, Ev.spoke noSpeechPrompt,
           Ev.waited noSpeechPrompt.length] } := by
  obtain ⟨a, hist, ph, ev⟩ := s
  simp only at h1 h2
  subst h1
  subst h2
  simp [runA, stepA, listenForSpeech, transcribeResult, toLoopTop]

lemma runA_sttFail_reps (w : String) :
    ∀ (n : Nat) (s : AgentSt), s.isActive = true → s.phase = .capturing →
      runA s (reps n [.capture (.ok (some w)), .stt .exn, .tts (.ok "m")]) =
        { s with events := (s.events ++
            reps n [Ev.sttAttempt w, Ev.spoke noSpeechPrompt,
                    Ev.waited noSpeechPrompt.length]) } := by
  intro n
  induction n with
  | zero =>
    intro s h1 h2
    simp [reps, runA]
  | succ m ih =>
    intro s h1 h2
    rw [reps, runA_append, runA_sttFail_cycle s w h1 h2]
    rw [ih _ (by simpa using h1) (by simpa using h2)]
    simp [reps, List.append_assoc]

lemma runA_silence_reps :
    ∀ (n : Nat) (s : AgentSt), s.isActive = true → s.phase = .capturing →
      runA s (reps n [.capture (.ok none), .tts (.ok "m")]) =
        { s with events := (s.events ++
            reps n [Ev.spoke noAudioPrompt,
                    Ev.waited noAudioPrompt.length]) } := by
  intro n
  induction n with
  | zero =>
    intro s h1 h2
    simp [reps, runA]
  | succ m ih =>
    intro s h1 h2
    rw [reps, runA_append, runA_silence_cycle s h1 h2]
    rw [ih _ (by simpa using h1) (by simpa using h2)]
    simp [reps, List.append_assoc]

lemma countEv_append (e : Ev) (l1 l2 : List Ev) :
    countEv e (l1 ++ l2) = countEv e l1 + countEv e l2 := by
  simp [countEv, List.filter_append]

lemma countEv_reps (e : Ev) (n : Nat) (l : List Ev) :
    countEv e (reps n l) = n * countEv e l := by
  induction n with
  | zero => simp [reps, countEv]
  | succ m ih =>
    rw [reps, countEv_append, ih]
    ring

/-- C5, counterexample: two consecutive hard transcription failures do NOT
route the loop to `Closed`, and the failed window is never retried.  After
two turns whose transcription raises, the loop has transcribed each captured
window exactly once (`sttAttempt "w1"` then `sttAttempt "w2"` — the second
attempt is a fresh capture, not a retry of the first window), has spoken the
apology re-prompt twice, is still active and is back at capture. -/
theorem C5_counterexample :
    (runA initA [.capture (.ok (some "w1")), .stt .exn, .tts (.ok "m"),
      .capture (.ok (some "w2")), .stt .exn, .tts (.ok "m")]).phase =
      .capturing ∧
    (runA initA [.capture (.ok (some "w1")), .stt .exn, .tts (.ok "m"),
      .capture (.ok (some "w2")), .stt .exn, .tts (.ok "m")]).isActive =
      true ∧
    (runA initA [.capture (.ok (some "w1")), .stt .exn, .tts (.ok "m"),
      .capture (.ok (some "w2")), .stt .exn, .tts (.ok "m")]).events =
      [Ev.sttAttempt "w1", Ev.spoke noSpeechPrompt,
       Ev.waited noSpeechPrompt.length,
       Ev.sttAttempt "w2", Ev.spoke noSpeechPrompt,
       Ev.waited noSpeechPrompt.length] := by
  decide

/-- C5 (amended): `_transcribe` catches every transcription-service failure
(including timeouts) and returns `None`, which the loop treats exactly like
unrecognized speech: it speaks the fixed apology re-prompt and proceeds to
capture a fresh window.  There is no retry budget: the failed window is never
re-transcribed (one `sttAttempt` per turn), and arbitrarily many consecutive
failures never route the loop to `Closed` — after `n` failed turns the loop is
still active and capturing, with exactly `n` transcription attempts and `n`
re-prompts. -/
theorem C5_failure_reprompts_forever (n : Nat) :
    (runA initA (reps n [.capture (.ok (some "w")), .stt .exn,
      .tts (.ok "m")])).phase = .capturing ∧
    (runA initA (reps n [.capture (.ok (some "w")), .stt .exn,
      .tts (.ok "m")])).isActive = true ∧
    countEv (Ev.sttAttempt "w") (runA initA (reps n [.capture (.ok (some "w")),
      .stt .exn, .tts (.ok "m")])).events = n ∧
    countEv (Ev.spoke noSpeechPrompt) (runA initA
      (reps n [.capture (.ok (some "w")), .stt .exn,
        .tts (.ok "m")])).events = n := by
  have h := runA_sttFail_reps "w" n initA rfl rfl
  rw [h]
  have c1 : countEv (Ev.sttAttempt "w")
      [Ev.sttAttempt "w", Ev.spoke noSpeechPrompt,
       Ev.waited noSpeechPrompt.length] = 1 := by decide
  have c2 : countEv (Ev.spoke noSpeechPrompt)
      [Ev.sttAttempt "w", Ev.spoke noSpeechPrompt,
       Ev.waited noSpeechPrompt.length] = 1 := by decide
  refine ⟨rfl, rfl, ?_, ?_⟩ <;>
    simp [initA, countEv_reps, c1, c2]

/-- C6, counterexample: there is no silence threshold in the code.  Two
consecutive empty captures trigger the fixed re-prompt TWICE (the claim says
exactly once), and a third empty capture triggers it a third time (the claim
says no further re-prompt immediately after the reset). -/
theorem C6_counterexample :
    countEv (Ev.spoke noAudioPrompt)
      (runA initA (reps 2 [.capture (.ok none), .tts (.ok "m")])).events =
      2 ∧
    countEv (Ev.spoke noAudioPrompt)
      (runA initA (reps 3 [.capture (.ok none), .tts (.ok "m")])).events =
      3 := by
  decide

/-- C6 (amended): the loop has no consecutive-silence counter: every empty
capture immediately triggers one fixed re-prompt utterance, so `n`
consecutive empty captures produce exactly `n` re-prompts; the call is never
ended by silence (the loop stays active and returns to capture). -/
theorem C6_reprompt_every_silence (n : Nat) :
    countEv (Ev.spoke noAudioPrompt)
      (runA initA (reps n [.capture (.ok none), .tts (.ok "m")])).events =
      n ∧
    (runA initA (reps n [.capture (.ok none),
      .tts (.ok "m")])).phase = .capturing ∧
    (runA initA (reps n [.capture (.ok none),
      .tts (.ok "m")])).isActive = true := by
  have h := runA_silence_reps n initA rfl rfl
  rw [h]
  have c1 : countEv (Ev.spoke noAudioPrompt)
      [Ev.spoke noAudioPrompt, Ev.waited noAudioPrompt.length] = 1 := by
    decide
  refine ⟨?_, rfl, rfl⟩
  simp [initA, countEv_reps, c1]

/-- An input a purely silent caller can produce for the agent loop: an empty
capture, or the completion of the loop's own re-prompt playback. -/
def silenceInp (i : Inp) : Prop :=
  i = .capture (.ok none) ∨ ∃ r, i = .tts r

/-- Invariant of the agent loop under silent input: the call stays active,
the loop is either capturing or speaking the fixed silence re-prompt, and no
hangup has happened. -/
def SilenceInv (s : AgentSt) : Prop :=
  s.isActive = true ∧
  (s.phase = .capturing ∨ s.phase = .speakText noAudioPrompt .continueLoop) ∧
  Ev.hangup ∉ s.events

lemma silenceInv_step (s : AgentSt) (i : Inp) (hi : silenceInp i)
    (hs : SilenceInv s) : SilenceInv (stepA s i) := by
  obtain ⟨h1, h2, h3⟩ := hs
  obtain ⟨a, hist, ph, ev⟩ := s
  simp only at h1 h2 h3
  subst h1
  rcases hi with rfl | ⟨r, rfl⟩
  · rcases h2 with h2 | h2 <;> subst h2 <;>
      simp [SilenceInv, stepA, listenForSpeech, h3]
  · rcases h2 with h2 | h2 <;> subst h2
    · cases r <;> simp [SilenceInv, stepA, h3]
    · cases r <;> simp [SilenceInv, stepA, toLoopTop, h3]

lemma silenceInv_run (script : List Inp) :
    ∀ s : AgentSt, (∀ i ∈ script, silenceInp i) → SilenceInv s →
      SilenceInv (runA s script) := by
  induction script with
  | nil =>
    intro s _ hs
    exact hs
  | cons i rest ih =>
    intro s hall hs
    exact ih (stepA s i) (fun j hj => hall j (List.mem_cons_of_mem i hj))
      (silenceInv_step s i (hall i (List.mem_cons_self i rest)) hs)

lemma runT_silence (ts : List TInp) :
    ∀ s : TransSt, (∀ i ∈ ts, i = TInp.chunk (.ok none)) →
      s.isRecording = true → s.phase = .capturingT →
      (runT s ts).phase = .capturingT ∧ (runT s ts).isRecording = true ∧
        (runT s ts).events = s.events := by
  induction ts with
  | nil =>
    intro s _ h1 h2
    exact ⟨h2, h1, rfl⟩
  | cons i rest ih =>
    intro s hall h1 h2
    have hi : i = TInp.chunk (.ok none) := hall i (List.mem_cons_self i rest)
    subst hi
    obtain ⟨rec, cid, now, ph, ev⟩ := s
    simp only at h1 h2
    subst h1
    subst h2
    exact ih _ (fun j hj => hall j (List.mem_cons_of_mem _ hj)) rfl rfl

/-- C7: a silent caller never ends the call.  For every sequence of inputs in
which each capture returns no audio (the agent loop additionally consuming
its own re-prompt playbacks), the agent loop stays active, never reaches
`closed` and never hangs up; and the transcription loop under a sequence of
empty chunks stays recording, stays capturing and pushes nothing.  Because
every prefix of such a script is again such a script, this covers every
intermediate state of the run, not only the final one. -/
theorem C7_silence_never_closes (script : List Inp)
    (hA : ∀ i ∈ script, silenceInp i) (ts : List TInp)
    (hT : ∀ i ∈ ts, i = TInp.chunk (.ok none)) :
    ((runA initA script).isActive = true ∧
      (runA initA script).phase ≠ .closed ∧
      Ev.hangup ∉ (runA initA script).events) ∧
    ((runT initT ts).phase = .capturingT ∧
      (runT initT ts).isRecording = true ∧ (runT initT ts).events = []) := by
  constructor
  · have hinv : SilenceInv (runA initA script) :=
      silenceInv_run script initA hA ⟨rfl, Or.inl rfl, by simp [initA]⟩
    obtain ⟨h1, h2, h3⟩ := hinv
    refine ⟨h1, ?_, h3⟩
    rcases h2 with h2 | h2 <;> simp [h2]
  · exact runT_silence ts initT hT rfl rfl

/-- Witness for C7: one empty capture plus the re-prompt playback in agent
mode, one empty chunk in transcription mode. -/
theorem C7_silence_never_closes_witness :
    ((runA initA [.capture (.ok none), .tts (.ok "m")]).isActive = true ∧
      (runA initA [.capture (.ok none), .tts (.ok "m")]).phase ≠ .closed ∧
      Ev.hangup ∉ (runA initA [.capture (.ok none), .tts (.ok "m")]).events) ∧
    ((runT initT [.chunk (.ok none)]).phase = .capturingT ∧
      (runT initT [.chunk (.ok none)]).isRecording = true ∧
      (runT initT [.chunk (.ok none)]).events = []) :=
  C7_silence_never_closes [.capture (.ok none), .tts (.ok "m")]
    (by
      intro i hi
      simp only [List.mem_cons, List.not_mem_nil, or_false] at hi
      rcases hi with rfl | rfl
      · exact Or.inl rfl
      · exact Or.inr ⟨.ok "m", rfl⟩)
    [.chunk (.ok none)]
    (by
      intro i hi
      simp only [List.mem_cons, List.not_mem_nil, or_false] at hi
      exact hi)

/-- C2: every exception raised inside a single turn is caught and mapped to a
recovery, and the loop always continues to a well-defined control point:
a capture failure is treated as silence (re-prompt, then fresh capture);
a transcription failure is treated as unrecognized speech (re-prompt, then
fresh capture); a generation failure becomes the fixed apology with the end
flag set (call termination); a synthesis failure is swallowed by `_speak` and
the turn proceeds exactly as if playback happened; a hangup failure is caught
by the loop-level handler, which sleeps and re-enters the loop; the exited
loop stays exited; and in transcription mode a chunk or transcription failure
makes the loop sleep and re-enter.  In no case does a stage exception escape
the loop or leave it stuck. -/
theorem C2_turn_failures_contained (s : AgentSt) (win text : String)
    (k : After) (i : Inp) (st : TransSt) :
    (s.phase = .capturing →
      stepA s (.capture .exn) =
        { s with phase := .speakText noAudioPrompt .continueLoop }) ∧
    (s.phase = .awaitStt win →
      stepA s (.stt .exn) =
        { s with events := s.events ++ [Ev.sttAttempt win],
                 phase := .speakText noSpeechPrompt .continueLoop }) ∧
    (s.phase = .awaitGen →
      stepA s (.gen .exn) =
        { s with history := s.history ++ [Msg.mk "assistant" apologyText],
                 events := s.events ++ [Ev.genCalled],
                 phase := .speakText apologyText (.checkEnd true) }) ∧
    (s.phase = .speakText text k →
      stepA s (.tts .exn) =
        { s with events := s.events ++ [Ev.spoke text],
                 phase := (match k with
                           | .continueLoop => toLoopTop s.isActive
                           | .checkEnd false => toLoopTop s.isActive
                           | .checkEnd true => .awaitHangup) }) ∧
    (s.phase = .awaitHangup →
      stepA s (.hangupRes .exn) = { s with phase := toLoopTop s.isActive }) ∧
    (s.phase = .closed → (stepA s i).phase = .closed) ∧
    (st.phase = .capturingT →
      stepT st (.chunk .exn) =
        { st with now := st.now + 1,
                  phase := toLoopTopT st.isRecording }) ∧
    (∀ twin : String, st.phase = .awaitSttT twin →
      stepT st (.sttT .exn) =
        { st with now := st.now + 1,
                  phase := toLoopTopT st.isRecording }) := by
  obtain ⟨a, hist, ph, ev⟩ := s
  obtain ⟨rec, cid, now, tph, tev⟩ := st
  refine ⟨?_, ?_, ?_, ?_, ?_, ?_, ?_, ?_⟩
  · intro h
    simp only at h
    subst h
    rfl
  · intro h
    simp only at h
    subst h
    rfl
  · intro h
    simp only at h
    subst h
    rfl
  · intro h
    simp only at h
    subst h
    cases k with
    | continueLoop => rfl
    | checkEnd e => cases e <;> rfl
  · intro h
    simp only at h
    subst h
    rfl
  · intro h
    simp only at h
    subst h
    cases i <;> rfl
  · intro h
    simp only at h
    subst h
    rfl
  · intro twin h
    simp only at h
    subst h
    rfl

/-- Witness for C2: each failure conjunct applied at a concrete state. -/
theorem C2_turn_failures_contained_witness :
    stepA { isActive := true, history := [], phase := .capturing,
            events := [] } (.capture .exn) =
      { isActive := true, history := [],
        phase := .speakText noAudioPrompt .continueLoop, events := [] } ∧
    stepA { isActive := true, history := [], phase := .awaitStt "w",
            events := [] } (.stt .exn) =
      { isActive := true, history := [],
        phase := .speakText noSpeechPrompt .continueLoop,
        events := [Ev.sttAttempt "w"] } ∧
    stepT { isRecording := true, callId := "call-1", now := 0,
            phase := .capturingT, events := [] } (.chunk .exn) =
      { isRecording := true, callId := "call-1", now := 1,
        phase := .capturingT, events := [] } :=
  have h := C2_turn_failures_contained
    { isActive := true, history := [], phase := .capturing, events := [] }
    "w" "t" .continueLoop .deactivate
    { isRecording := true, callId := "call-1", now := 0,
      phase := .capturingT, events := [] }
  have h2 := C2_turn_failures_contained
    { isActive := true, history := [], phase := .awaitStt "w", events := [] }
    "w" "t" .continueLoop .deactivate
    { isRecording := true, callId := "call-1", now := 0,
      phase := .capturingT, events := [] }
  ⟨h.1 rfl, h2.2.1 rfl, h.2.2.2.2.2.2.1 rfl⟩

/-- A call whose loop is about to play the utterance `"Hallo"`. -/
def speakingHallo : AgentSt :=
  { isActive := true, history := [],
    phase := .speakText "Hallo" (.checkEnd false), events := [] }

/-- C8: `_speak` does not wait for an end-of-playback signal; it sleeps for a
duration computed from the LENGTH OF THE UTTERANCE TEXT
(`len(text) * 0.1` seconds, agent_bot.py line 254), ignoring the synthesized
audio entirely.  First conjunct: for the utterance `"Hallo"` the loop records
a wait of `5` tenths of a second — `"Hallo".length` — whatever audio the
synthesizer returned.  Second and third conjuncts, generally: for any state
speaking `text`, the recorded wait is `text.length` tenths, and the entire
step is independent of the synthesized audio bytes. -/
theorem C8_playback_wait_is_text_length :
    ((stepA speakingHallo (.tts (.ok "some-mp3-bytes"))).events =
      [Ev.spoke "Hallo", Ev.waited 5]) ∧
    (∀ (act : Bool) (hist : List Msg) (ev : List Ev) (text : String)
        (k : After) (b : String),
      (stepA ⟨act, hist, .speakText text k, ev⟩
          (.tts (.ok b))).events =
        ev ++ [Ev.spoke text, Ev.waited text.length]) ∧
    (∀ (act : Bool) (hist : List Msg) (ev : List Ev) (text : String)
        (k : After) (b1 b2 : String),
      stepA ⟨act, hist, .speakText text k, ev⟩ (.tts (.ok b1)) =
        stepA ⟨act, hist, .speakText text k, ev⟩ (.tts (.ok b2))) := by
  refine ⟨by decide, ?_, ?_⟩
  · intro act hist ev text k b
    cases k with
    | continueLoop => rfl
    | checkEnd e => cases e <;> rfl
  · intro act hist ev text k b1 b2
    cases k with
    | continueLoop => rfl
    | checkEnd e => cases e <;> rfl

/-- C9: in transcription mode, EVERY captured window whose transcription
yields the text `"Hallo"` results in exactly one push to the transcript sink,
carrying the call handle, the text `"Hallo"` and a timestamp, after which the
loop is back at capture.  Universal over the mid-call state (any clock value,
call handle and previously accumulated pushes), over the captured window, and
over every raw transcription-service response that strips to `"Hallo"`: the
turn appends exactly the one push `(callId, "Hallo", timestamp)` to the event
log, changes nothing else, and returns the loop to `capturingT`.  (The sink
itself is modelled from the spec, as a push of `(CallHandle, text,
timestamp)`; the code passes the text to the external
`ws_sender.send_transcript`.) -/
theorem C9_hallo_window_one_push (st : TransSt) (w raw : String)
    (h1 : st.phase = .capturingT) (h2 : st.isRecording = true)
    (hraw : pstrip raw = "Hallo") :
    runT st [.chunk (.ok (some w)), .sttT (.ok raw)] =
      { st with now := st.now + 2,
                events := (st.events ++
                  [TEv.sinkPush st.callId "Hallo" (st.now + 2)]),
                phase := .capturingT } := by
  obtain ⟨rec, cid, now, tph, tev⟩ := st
  simp only at h1 h2
  subst h1
  subst h2
  simp [runT, stepT, getAudioChunk, transcribeAudio, hraw, toLoopTopT]

/-- Witness for C9 at the initial state with window `"w"` and the raw
service response `"Hallo"`. -/
theorem C9_hallo_window_one_push_witness :
    runT initT [.chunk (.ok (some "w")), .sttT (.ok "Hallo")] =
      { initT with now := initT.now + 2,
                   events := (initT.events ++
                     [TEv.sinkPush initT.callId "Hallo" (initT.now + 2)]),
                   phase := .capturingT } :=
  C9_hallo_window_one_push initT "w" "Hallo" rfl rfl (by decide)

/-- C10: a transcription result that is empty after stripping whitespace is
treated exactly like unrecognized speech.  In agent mode the loop proceeds to
speak the fixed re-prompt, appends nothing to the conversation history and
does not invoke generation (nor any synthesis beyond that re-prompt) in that
turn; in transcription mode nothing is pushed to the sink and the loop
returns to capture. -/
theorem C10_blank_transcript_is_no_speech (s : AgentSt) (win raw : String)
    (st : TransSt) (twin : String) (hA : s.phase = .awaitStt win)
    (hT : st.phase = .awaitSttT twin) (hraw : pstrip raw = "") :
    stepA s (.stt (.ok raw)) =
      { s with events := s.events ++ [Ev.sttAttempt win],
               phase := .speakText noSpeechPrompt .continueLoop } ∧
    stepT st (.sttT (.ok raw)) =
      { st with now := st.now + 1, phase := toLoopTopT st.isRecording } := by
  obtain ⟨a, hist, ph, ev⟩ := s
  obtain ⟨rec, cid, now, tph, tev⟩ := st
  simp only at hA hT
  subst hA
  subst hT
  constructor
  · simp [stepA, transcribeResult, hraw]
  · simp [stepT, transcribeAudio, hraw]

/-- Witness for C10: a transcription returning a single space. -/
theorem C10_blank_transcript_is_no_speech_witness :
    stepA { isActive := true, history := [], phase := .awaitStt "w",
            events := [] } (.stt (.ok " ")) =
      { isActive := true, history := [],
        phase := .speakText noSpeechPrompt .continueLoop,
        events := [Ev.sttAttempt "w"] } ∧
    stepT { isRecording := true, callId := "call-1", now := 0,
            phase := .awaitSttT "w", events := [] } (.sttT (.ok " ")) =
      { isRecording := true, callId := "call-1", now := 1,
        phase := .capturingT, events := [] } :=
  C10_blank_transcript_is_no_speech
    { isActive := true, history := [], phase := .awaitStt "w", events := [] }
    "w" " "
    { isRecording := true, callId := "call-1", now := 0,
      phase := .awaitSttT "w", events := [] }
    "w" rfl rfl (by decide)

end SipBot
